import Mathlib

/-!
Shallow embedding of `src/source/miso.py` (MISO market-report downloader and
time-series assembler) and verification of its specification claims.

External collaborators (HTTP retrieval, the on-disk cache, and the pandas
table engine) are modelled explicitly: the network is a function from URL to
bytes, the cache is a key-value store of raw content, and the pandas
operations actually used by the source (read_csv, insert, boolean-mask
filtering, drop, set_index, stack, reset_index, concat) are given direct
definitions on a small dataframe type.  Collaborator calls are recorded in an
event trace so that ordering claims ("no network activity before X") can be
stated.
-/

namespace Miso

/-- Calendar date (year, month, day), as produced by `datetime.strptime`. -/
structure Date where
  year : Int
  month : Int
  day : Int
deriving DecidableEq, Repr

/-- Gregorian leap-year rule. -/
def isLeap (y : Int) : Bool := (y % 4 == 0 && y % 100 != 0) || y % 400 == 0

/-- Number of days in a month of a given year. -/
def daysInMonth (y m : Int) : Int :=
  if m = 2 then (if isLeap y then 29 else 28)
  else if m = 4 ∨ m = 6 ∨ m = 9 ∨ m = 11 then 30 else 31

/-- Serial day number of a civil date (days since 1970-01-01). -/
def civilToDays (d : Date) : Int :=
  let y : Int := if d.month ≤ 2 then d.year - 1 else d.year
  let era : Int := (if 0 ≤ y then y else y - 399) / 400
  let yoe : Int := y - era * 400
  let mp : Int := (d.month + 9) % 12
  let doy : Int := (153 * mp + 2) / 5 + d.day - 1
  let doe : Int := yoe * 365 + yoe / 4 - yoe / 100 + doy
  era * 146097 + doe - 719468

/-- Civil date of a serial day number (inverse of `civilToDays`). -/
def daysToCivil (z0 : Int) : Date :=
  let z : Int := z0 + 719468
  let era : Int := (if 0 ≤ z then z else z - 146096) / 146097
  let doe : Int := z - era * 146097
  let yoe : Int := (doe - doe / 1460 + doe / 36524 - doe / 146096) / 365
  let y : Int := yoe + era * 400
  let doy : Int := doe - (365 * yoe + yoe / 4 - yoe / 100)
  let mp : Int := (5 * doy + 2) / 153
  let dd : Int := doy - (153 * mp + 2) / 5 + 1
  let mm : Int := mp + (if mp < 10 then 3 else -9)
  ⟨if mm ≤ 2 then y + 1 else y, mm, dd⟩

/-- `pd.date_range(d1, d2, freq='D')`: all days from `d1` to `d2` inclusive;
empty when `d2 < d1`. -/
def dateRange (d1 d2 : Date) : List Date :=
  (List.range (civilToDays d2 - civilToDays d1 + 1).toNat).map
    (fun i => daysToCivil (civilToDays d1 + i))

/-- Split a character list at every occurrence of a separator character. -/
def splitOnChar (c : Char) : List Char → List (List Char)
  | [] => [[]]
  | x :: xs =>
    if x = c then [] :: splitOnChar c xs
    else
      match splitOnChar c xs with
      | [] => [[x]]
      | g :: gs => (x :: g) :: gs

/-- Split a string at every occurrence of a separator character (the only
separators the source splits on are single characters). -/
def strSplit (sep : Char) (s : String) : List String :=
  (splitOnChar sep s.data).map (fun cs => String.mk cs)

/-- Decimal digit value of a character, if it is a digit. -/
def digitVal? (c : Char) : Option Nat :=
  if '0' ≤ c ∧ c ≤ '9' then some (c.toNat - '0'.toNat) else none

/-- Accumulate a decimal number over a character list; `none` on the first
non-digit. -/
def digitsToNatAux (acc : Nat) : List Char → Option Nat
  | [] => some acc
  | c :: cs =>
    match digitVal? c with
    | none => none
    | some d => digitsToNatAux (acc * 10 + d) cs

/-- Parse a nonempty all-digit string as a natural number. -/
def strToNat? (s : String) : Option Nat :=
  match s.data with
  | [] => none
  | cs => digitsToNatAux 0 cs

/-- `datetime.strptime(s, "%Y-%m-%d")`: parse a date, `none` on failure. -/
def parseDate (s : String) : Option Date :=
  match strSplit '-' s with
  | [ys, ms, ds] =>
    match strToNat? ys, strToNat? ms, strToNat? ds with
    | some y, some m, some d =>
      if 1 ≤ m ∧ m ≤ 12 ∧ 1 ≤ d ∧ (d : Int) ≤ daysInMonth y m then
        some ⟨y, m, d⟩
      else none
    | _, _, _ => none
  | _ => none

/-- Zero-pad the decimal rendering of a natural number to `w` digits. -/
def padNat (w : Nat) (n : Nat) : String :=
  let s := toString n
  String.mk (List.replicate (w - s.length) '0') ++ s

/-- `day.strftime('%Y%m%d')`. -/
def ymd8 (d : Date) : String :=
  padNat 4 d.year.toNat ++ padNat 2 d.month.toNat ++ padNat 2 d.day.toNat

/-- Python `range(start, stop, step)` for a positive step. -/
def pyRangeStep (start stop step : Nat) : List Nat :=
  (List.range ((stop - start + step - 1) / step)).map (fun i => start + step * i)

/-- Python `round(x, 2)` modelled on the rationals: round to the nearest
hundredth (ties are not distinguished by any claim). -/
def round2 (q : ℚ) : ℚ := ((round (q * 100) : ℤ) : ℚ) / 100

/-- Python `s.split()[0]`: first whitespace-delimited token.  Python raises
IndexError on an all-whitespace cell; the model totalizes with `""`. -/
def firstToken (s : String) : String :=
  String.mk ((s.data.dropWhile Char.isWhitespace).takeWhile (fun c => ¬ c.isWhitespace))

/-- First sheet of an XLS workbook, as accessed by `convert_df_al2csv`:
rows 0-3 are read as stringified cell values, row 4 provides the labelled
zone header cells, and rows 6-29 provide numeric data cells. -/
structure Sheet where
  srows : Nat → List String
  hdr : List String
  num : Nat → Nat → ℚ

/-- An `xlrd` workbook (only `sheet_by_index(0)` is ever used). -/
structure Workbook where
  sheet0 : Sheet

/-- One emitted CSV field: a string cell or a numeric cell. -/
inductive Field where
  | str (s : String)
  | num (q : ℚ)
deriving DecidableEq, Repr

/-- The synthetic header row `Zone,Type,Value,0,1,...,23`. -/
def dfalHeaderRow : List Field :=
  [Field.str "Zone", Field.str "Type", Field.str "Value"]
    ++ (List.range 24).map (fun j => Field.str (toString j))

/-- Zone columns of the report: `range(2, len(sheet.row(4)), 2)`. -/
def zoneCols (sh : Sheet) : List Nat := pyRangeStep 2 sh.hdr.length 2

/-- One "Forecast"/"LOAD" row for the zone column `z` (rows 6-29, rounded). -/
def forecastRow (sh : Sheet) (z : Nat) : List Field :=
  [Field.str (firstToken (sh.hdr.getD z "")), Field.str "Forecast", Field.str "LOAD"]
    ++ (pyRangeStep 6 30 1).map (fun r => Field.num (round2 (sh.num r z)))

/-- One "Actual"/"LOAD" row for the zone column `z`: same label cell, values
from the adjacent column `z + 1` at the same rows. -/
def actualRow (sh : Sheet) (z : Nat) : List Field :=
  [Field.str (firstToken (sh.hdr.getD z "")), Field.str "Actual", Field.str "LOAD"]
    ++ (pyRangeStep 6 30 1).map (fun r => Field.num (round2 (sh.num r (z + 1))))

/-- Structured output of `convert_df_al2csv`: the four descriptive rows, the
synthetic header, then one Forecast row per zone column, then one Actual row
per zone column (two separate loops in the source). -/
def convert_df_al2csv_rows (wb : Workbook) : List (List Field) :=
  let sh := wb.sheet0
  ((List.range 4).map (fun r => (sh.srows r).map Field.str))
    ++ [dfalHeaderRow]
    ++ (zoneCols sh).map (forecastRow sh)
    ++ (zoneCols sh).map (actualRow sh)

/-- Decimal rendering of a rational whose denominator divides 100 (the image
of `round2`), matching `str(round(x, 2))` up to trailing-zero choices; other
denominators fall back to the raw rational text. -/
def ratRender (q : ℚ) : String :=
  if 100 % q.den = 0 then
    let sgn := if q.num < 0 then "-" else ""
    let n := q.num.natAbs
    let ip := n / q.den
    let frac100 := (n % q.den) * (100 / q.den)
    let fracs := if frac100 % 10 = 0 then toString (frac100 / 10)
      else padNat 2 frac100
    sgn ++ toString ip ++ "." ++ fracs
  else toString q

/-- Render one field as text (decimal rendering stands in for Python's float
formatting; no claim depends on the digits chosen). -/
def Field.render : Field → String
  | .str s => s
  | .num q => ratRender q

/-- Join structured rows into the delimited text the source builds. -/
def renderRows (rows : List (List Field)) : String :=
  String.intercalate "\n" (rows.map (fun r => String.intercalate "," (r.map Field.render)))

/-- `convert_df_al2csv`: Forecast and Actual Load Report, XLS to CSV. -/
def convert_df_al2csv (wb : Workbook) : String :=
  renderRows (convert_df_al2csv_rows wb)

/-- Raw report content as retrieved or cached: either bytes that decode as
delimited text, or an XLS workbook. -/
inductive Content where
  | csv (text : String)
  | xls (wb : Workbook)

/-- The converter registry (`globals()` lookup by constructed name). -/
def Registry : Type := String → Option (Workbook → String)

/-- The module's actual global namespace: only `convert_df_al2csv`. -/
def misoGlobals : Registry :=
  fun n => if n = "convert_df_al2csv" then some convert_df_al2csv else none

/-- The on-disk cache: a key-value store of raw content, keyed by filename. -/
def Cache : Type := String → Option Content

/-- The empty cache. -/
def emptyCache : Cache := fun _ => none

/-- Store an entry. -/
def cacheInsert (c : Cache) (k : String) (v : Content) : Cache :=
  fun k' => if k' = k then some v else c k'

/-- `os.remove`: drop an entry. -/
def cacheErase (c : Cache) (k : String) : Cache :=
  fun k' => if k' = k then none else c k'

/-- External world: byte retrieval (`requests.get(url).content`, failures are
exceptions) and whether a cache write at a given key succeeds. -/
structure Env where
  net : String → Except Unit Content
  writeOk : String → Bool

/-- Collaborator events, in call order. -/
inductive Ev where
  | cacheExists (key : String)
  | cacheRead (key : String)
  | cacheWrite (key : String)
  | cacheRemove (key : String)
  | netGet (url : String)
  | convertCall (name : String)
deriving DecidableEq, Repr

/-- Errors observable from the embedded code (Python exception kinds). -/
inductive Err where
  | keyError (k : String)
  | retrievalFailure
  | cacheWriteFailure
  | misoInvalidDataFormat (filename : String)
  | misoNodeNotFound (s : String)
  | misoTypeNotFound (s : String)
  | misoValueNotFound (s : String)
  | nameError (undefinedName : String)
  | decodeError
  | xlrdError
  | attributeError
  | dateParseError
  | emptyDataError
  | colKeyError (k : String)
  | lengthMismatch
  | concatError
deriving DecidableEq, Repr

namespace Data

/-- `Data.BASEURL`. -/
def BASEURL : String := "https://docs.misoenergy.org/marketreports"

/-- `Data.CACHEDIR`. -/
def CACHEDIR : String := ".cache"

/-- `Data.DATAFORMATS`. -/
def DATAFORMATS : List (String × String) :=
  [("da_exante_lmp", "csv"), ("da_expost_lmp", "csv"), ("df_al", "xls"),
   ("rt_lmp_final", "csv"), ("rt_lmp_prelim", "csv")]

/-- `self.DATAFORMATS[dataset]` (`none` models the KeyError). -/
def lookupFormat (dataset : String) : Option String :=
  (DATAFORMATS.find? (fun p => p.1 == dataset)).map (fun p => p.2)

/-- The cache filename `{CACHEDIR}/{dataset}_{YYYYMMDD}.{ext}`. -/
def fname (dataset : String) (day : Date) (ext : String) : String :=
  CACHEDIR ++ "/" ++ dataset ++ "_" ++ ymd8 day ++ "." ++ ext

/-- The remote URL `{BASEURL}/{YYYYMMDD}_{dataset}.{ext}`. -/
def furl (dataset : String) (day : Date) (ext : String) : String :=
  BASEURL ++ "/" ++ ymd8 day ++ "_" ++ dataset ++ "." ++ ext

/-- Outcome of a `Data(dataset, day)` construction: the canonical text (or
the exception), the cache afterwards, and the collaborator trace. -/
structure FetchOut where
  result : Except Err String
  cache : Cache
  trace : List Ev

/-- Lines 78-86 of the source: dispatch on the dataset's format.  For `xls`,
parse the (written or cached) file as a workbook and run the converter found
under the constructed name, raising `MisoInvalidDataFormat(filename)` when
no such global exists; for `csv`, decode the bytes as text. -/
def processContent (registry : Registry) (dataset ext filename : String)
    (content : Content) : Except Err String × List Ev :=
  if ext = "xls" then
    match content with
    | .csv _ => (.error .xlrdError, [])
    | .xls wb =>
      let converter := "convert_" ++ dataset ++ "2csv"
      match registry converter with
      | none => (.error (.misoInvalidDataFormat filename), [])
      | some f => (.ok (f wb), [.convertCall converter])
  else if ext = "csv" then
    match content with
    | .csv s => (.ok s, [])
    | .xls _ => (.error .decodeError, [])
  else (.error .attributeError, [])

/-- `Data.__init__`: the cached fetch.  On a miss, download and write the raw
bytes to the cache (on a write failure, remove the partial file and re-raise);
on a hit, read the raw bytes back.  Either way the format dispatch then runs
on those bytes. -/
def init (registry : Registry) (env : Env) (cache : Cache)
    (dataset : String) (day : Date) : FetchOut :=
  match lookupFormat dataset with
  | none => ⟨.error (.keyError dataset), cache, []⟩
  | some ext =>
    let filename := fname dataset day ext
    match cache filename with
    | none =>
      let url := furl dataset day ext
      match env.net url with
      | .error _ => ⟨.error .retrievalFailure, cache, [.cacheExists filename, .netGet url]⟩
      | .ok content =>
        if env.writeOk filename then
          let p := processContent registry dataset ext filename content
          ⟨p.1, cacheInsert cache filename content,
            [.cacheExists filename, .netGet url, .cacheWrite filename] ++ p.2⟩
        else
          ⟨.error .cacheWriteFailure, cacheErase cache filename,
            [.cacheExists filename, .netGet url, .cacheWrite filename,
             .cacheRemove filename]⟩
    | some content =>
      let p := processContent registry dataset ext filename content
      ⟨p.1, cache, [.cacheExists filename, .cacheRead filename] ++ p.2⟩

end Data

/-- A table cell: a string, a number, a timestamp (a day plus an exact
offset in seconds), or a missing value (NaN). -/
inductive Cell where
  | s (v : String)
  | q (v : ℚ)
  | dt (day : Date) (secs : ℚ)
  | na
deriving DecidableEq, Repr

/-- Cell of a row at a position (missing positions read as NaN, standing in
for pandas' NaN padding). -/
def cellAt (r : List Cell) (i : Nat) : Cell := r.getD i Cell.na

/-- A pandas DataFrame as used by the source: named index levels with one
index row per data row (both empty for the default RangeIndex), column
labels (pandas labels are arbitrary objects, so labels are cells), and the
data rows. -/
structure DF where
  ixNames : List Cell
  ixRows : List (List Cell)
  cols : List Cell
  rows : List (List Cell)
deriving DecidableEq, Repr

/-- Keep elements of `l` whose mask entry is true (boolean-mask selection). -/
def applyMask : List α → List Bool → List α
  | [], _ => []
  | _, [] => []
  | a :: as, b :: bs => if b then a :: applyMask as bs else applyMask as bs

/-- Position of a column label. -/
def DF.colIdx (df : DF) (name : Cell) : Option Nat :=
  df.cols.findIdx? (fun c => c == name)

/-- `data[data[name] == v]`: keep rows whose cell in the named column equals
`v` (KeyError when the column is absent). -/
def DF.filterEq (df : DF) (name v : Cell) : Except Err DF :=
  match df.colIdx name with
  | none => .error (.colKeyError (toString (repr name)))
  | some i =>
    .ok { df with
      rows := df.rows.filter (fun r => cellAt r i == v),
      ixRows := applyMask df.ixRows (df.rows.map (fun r => cellAt r i == v)) }

/-- `data.drop(name, axis=1)`. -/
def DF.dropCol (df : DF) (name : Cell) : Except Err DF :=
  match df.colIdx name with
  | none => .error (.colKeyError (toString (repr name)))
  | some i =>
    .ok { df with cols := df.cols.eraseIdx i, rows := df.rows.map (fun r => r.eraseIdx i) }

/-- `data.insert(0, name, v)` with a scalar value broadcast to all rows. -/
def DF.insertScalar0 (df : DF) (name v : Cell) : DF :=
  { df with cols := name :: df.cols, rows := df.rows.map (fun r => v :: r) }

/-- `data.columns = new` (pandas raises on a length mismatch). -/
def DF.setColumns (df : DF) (new : List Cell) : Except Err DF :=
  if new.length = df.cols.length then .ok { df with cols := new }
  else .error .lengthMismatch

/-- Remove the listed positions from a list, keeping the original order
(`i` is the position of the list's head in the original list). -/
def removePositionsFrom (ps : List Nat) : Nat → List α → List α
  | _, [] => []
  | i, a :: as =>
    if i ∈ ps then removePositionsFrom ps (i + 1) as
    else a :: removePositionsFrom ps (i + 1) as

/-- Remove the listed positions from a list, keeping the original order. -/
def removePositions (l : List α) (ps : List Nat) : List α :=
  removePositionsFrom ps 0 l

/-- Positions of the named columns among the column labels (KeyError when a
name is absent). -/
def listPositions (cols names : List Cell) : Except Err (List Nat) :=
  names.mapM (fun n =>
    match cols.findIdx? (fun c => c == n) with
    | some i => Except.ok i
    | none => Except.error (Err.colKeyError (toString (repr n))))

/-- `data.set_index(names)`: move the named columns (in the given order) into
the row index, replacing the previous index. -/
def DF.setIndex (df : DF) (names : List Cell) : Except Err DF := do
  let ps ← listPositions df.cols names
  Except.ok
    { ixNames := names,
      ixRows := df.rows.map (fun r => ps.map (cellAt r)),
      cols := removePositions df.cols ps,
      rows := df.rows.map (fun r => removePositions r ps) }

/-- `data.stack(dropna=dropna)`: unpivot the columns into one row per
(row, column) pair, appending the column label as a new (unnamed) index
level; when `dropna`, pairs whose value is NaN are skipped.  The result is a
Series, modelled as a one-column frame whose column label is the integer 0.
Index rows pair with data rows positionally. -/
def DF.stackOp (df : DF) (dropna : Bool) : DF :=
  let pieces := (df.ixRows.zip df.rows).flatMap (fun p =>
    df.cols.enum.filterMap (fun c =>
      let v := cellAt p.2 c.1
      if dropna && (v == Cell.na) then none
      else some (p.1 ++ [c.2], [v])))
  { ixNames := df.ixNames ++ [Cell.na],
    ixRows := pieces.map Prod.fst,
    cols := [Cell.q 0],
    rows := pieces.map Prod.snd }

/-- `data.reset_index()`: turn the index levels back into leading columns
(an unnamed level keeps its placeholder label; the source renames it
positionally right after). -/
def DF.resetIndex (df : DF) : DF :=
  { ixNames := [], ixRows := [],
    cols := df.ixNames ++ df.cols,
    rows := (df.ixRows.zip df.rows).map (fun p => p.1 ++ p.2) }

/-- Positional column rename (`columns = list; columns[i] = c`). -/
def DF.renameAt (df : DF) (i : Nat) (c : Cell) : DF :=
  { df with cols := df.cols.set i c }

/-- Timestamp plus `hour * 3600` seconds:
`data["Datetime"] + pd.to_timedelta(data["hour"] * 3600e9)` (nanoseconds). -/
def addHours : Cell → Cell → Cell
  | .dt d s, .q h => .dt d (s + h * 3600)
  | c, _ => c

/-- Line 169: overwrite the `Datetime` column with itself advanced by the
`hour` column. -/
def DF.updDatetime (df : DF) : Except Err DF :=
  match df.colIdx (Cell.s "Datetime"), df.colIdx (Cell.s "hour") with
  | some di, some hi =>
    .ok { df with
      rows := df.rows.map (fun r => r.set di (addHours (cellAt r di) (cellAt r hi))) }
  | _, _ => .error (.colKeyError "Datetime/hour")

/-- `pd.concat(result)`: raises on an empty list; otherwise appends the rows
(the per-day frames of this pipeline share one schema, so the first frame's
labels stand for all). -/
def pdConcat : List DF → Except Err DF
  | [] => .error .concatError
  | d :: ds =>
    .ok { ixNames := d.ixNames,
          ixRows := d.ixRows ++ ds.flatMap (fun x => x.ixRows),
          cols := d.cols,
          rows := d.rows ++ ds.flatMap (fun x => x.rows) }

/-- Parse an unsigned decimal character list as a rational. -/
def parseRatBody? (cs : List Char) : Option ℚ :=
  match splitOnChar '.' cs with
  | [i] =>
    (match i with
     | [] => none
     | _ => (digitsToNatAux 0 i).map (fun n => (n : ℚ)))
  | [i, f] =>
    (match i, f with
     | [], _ => none
     | _, [] => none
     | _, _ =>
       match digitsToNatAux 0 i, digitsToNatAux 0 f with
       | some a, some b => some ((a : ℚ) + (b : ℚ) / ((10 : ℚ) ^ f.length))
       | _, _ => none)
  | _ => none

/-- Parse a decimal field as a rational (sign, digits, optional fraction). -/
def parseRat? (s : String) : Option ℚ :=
  match s.data with
  | '-' :: rest => (parseRatBody? rest).map (fun q => -q)
  | cs => parseRatBody? cs

/-- Parse one CSV field the way pandas types it: empty is NaN, numeric text
is a number, anything else is a string. -/
def parseField (s : String) : Cell :=
  if s = "" then Cell.na
  else match parseRat? s with
    | some q => Cell.q q
    | none => Cell.s s

/-- `pd.read_csv(stream, skiprows=4)`: skip four lines, take the next line
as the (string) column labels, and parse the remaining non-blank lines. -/
def read_csv_skip4 (text : String) : Except Err DF :=
  match (strSplit '\n' text).drop 4 with
  | [] => .error .emptyDataError
  | hdr :: rest =>
    .ok { ixNames := [], ixRows := [],
          cols := (strSplit ',' hdr).map (fun h => Cell.s h),
          rows := (rest.filter (fun ln => ln ≠ "")).map
            (fun ln => (strSplit ',' ln).map parseField) }

/-- Lines 143-160: build the active index starting at `Datetime`; for each of
entity, `Type`, `Value`, either filter to the concrete value and drop the
column, or append the column to the index. -/
def filterStage (entityCol nodes types values : String) (df0 : DF) :
    Except Err (List Cell × DF) := do
  let p1 ←
    if nodes ≠ "*" then do
      let d ← df0.filterEq (Cell.s entityCol) (Cell.s nodes)
      let d ← d.dropCol (Cell.s entityCol)
      pure ([Cell.s "Datetime"], d)
    else pure ([Cell.s "Datetime", Cell.s entityCol], df0)
  let p2 ←
    if types ≠ "*" then do
      let d ← p1.2.filterEq (Cell.s "Type") (Cell.s types)
      let d ← d.dropCol (Cell.s "Type")
      pure (p1.1, d)
    else pure (p1.1 ++ [Cell.s "Type"], p1.2)
  let p3 ←
    if values ≠ "*" then do
      let d ← p2.2.filterEq (Cell.s "Value") (Cell.s values)
      let d ← d.dropCol (Cell.s "Value")
      pure (p2.1, d)
    else pure (p2.1 ++ [Cell.s "Value"], p2.2)
  pure p3

/-- Lines 162-172: the stack branch.  Set the index, relabel the remaining 24
columns as hours 0-23, stack, pull the hour level out as a column, advance
`Datetime` by the hour, drop the hour column, restore the index, and name the
single value column `Value`. -/
def stackStage (index : List Cell) (dropna : Bool) (df : DF) : Except Err DF := do
  let d1 ← df.setIndex index
  let d2 ← d1.setColumns ((List.range 24).map (fun (j : Nat) => Cell.q (j : ℚ)))
  let d3 := (d2.stackOp dropna).resetIndex
  let d4 := d3.renameAt index.length (Cell.s "hour")
  let d5 ← d4.updDatetime
  let d6 ← d5.dropCol (Cell.s "hour")
  let d7 ← d6.setIndex index
  d7.setColumns [Cell.s "Value"]

/-- The body of the per-day loop after the fetch (lines 138-172): parse the
canonical text, prepend `Datetime` at midnight of the day, filter, and
optionally stack. -/
def dayBody (entityCol : String) (stack : Bool) (types values nodes : String)
    (dropna : Bool) (day : Date) (text : String) : Except Err DF := do
  let data ← read_csv_skip4 text
  let data := data.insertScalar0 (Cell.s "Datetime") (Cell.dt day 0)
  let p ← filterStage entityCol nodes types values data
  if stack then stackStage p.1 dropna p.2 else pure p.2

/-- Outcome of the per-day loop: the accumulated nonempty per-day frames (or
the first exception), the cache afterwards, and the collaborator trace. -/
structure LoopOut where
  result : Except Err (List DF)
  cache : Cache
  trace : List Ev

/-- Lines 133-175: fetch each day, run the day body, and accumulate the
per-day frame when it has at least one row. -/
def assembleLoop (registry : Registry) (env : Env) (entityCol dataset : String)
    (stack : Bool) (types values nodes : String) (dropna : Bool) :
    List Date → Cache → LoopOut
  | [], cache => ⟨.ok [], cache, []⟩
  | day :: rest, cache =>
    let f := Data.init registry env cache dataset day
    match f.result with
    | .error e => ⟨.error e, f.cache, f.trace⟩
    | .ok text =>
      match dayBody entityCol stack types values nodes dropna day text with
      | .error e => ⟨.error e, f.cache, f.trace⟩
      | .ok df =>
        let out := assembleLoop registry env entityCol dataset stack types values
          nodes dropna rest f.cache
        ⟨out.result.map (fun dfs => (if 0 < df.rows.length then [df] else []) ++ dfs),
         out.cache, f.trace ++ out.trace⟩

/-- Outcome of a whole assembler construction. -/
structure AsmOut where
  result : Except Err DF
  cache : Cache
  trace : List Ev

/-- `Node.__init__` / `Zone.__init__` share this body, differing only in the
entity column name and the two vocabularies.  Validate the category and value
filters (the value branch evaluates the undefined name `MiseValueNotFound`,
a NameError), parse the two dates, loop over the range, and concatenate. -/
def assembleInit (validTypes validValues : List String) (entityCol : String)
    (registry : Registry) (env : Env) (cache : Cache)
    (starttime stoptime dataset : String) (stack : Bool)
    (types values nodes : String) (dropna : Bool) : AsmOut :=
  if types ≠ "*" ∧ ¬ types ∈ validTypes then
    ⟨.error (.misoTypeNotFound types), cache, []⟩
  else if values ≠ "*" ∧ ¬ values ∈ validValues then
    ⟨.error (.nameError "MiseValueNotFound"), cache, []⟩
  else
    match parseDate starttime with
    | none => ⟨.error .dateParseError, cache, []⟩
    | some d1 =>
      match parseDate stoptime with
      | none => ⟨.error .dateParseError, cache, []⟩
      | some d2 =>
        let lo := assembleLoop registry env entityCol dataset stack types values
          nodes dropna (dateRange d1 d2) cache
        match lo.result with
        | .error e => ⟨.error e, lo.cache, lo.trace⟩
        | .ok dfs => ⟨pdConcat dfs, lo.cache, lo.trace⟩

namespace Node

/-- `Node.VALIDTYPES`. -/
def VALIDTYPES : List String := ["Interface", "Loadzone", "Hub", "Gennode"]

/-- `Node.VALIDVALUES`. -/
def VALIDVALUES : List String := ["LMP", "MCC", "MLC"]

/-- `Node.__init__`. -/
def init : Registry → Env → Cache → String → String → String → Bool →
    String → String → String → Bool → AsmOut :=
  assembleInit VALIDTYPES VALIDVALUES "Node"

end Node

namespace Zone

/-- `Zone.VALIDTYPES`. -/
def VALIDTYPES : List String := ["Forecast", "Actual"]

/-- `Zone.VALIDVALUES`. -/
def VALIDVALUES : List String := ["LOAD"]

/-- `Zone.__init__`. -/
def init : Registry → Env → Cache → String → String → String → Bool →
    String → String → String → Bool → AsmOut :=
  assembleInit VALIDTYPES VALIDVALUES "Zone"

end Zone

/-! ### Specification-side vocabulary for the claims -/

/-- One row of a per-day canonical table: entity, category, value kind and
the 24 hourly cells (a cell may be NaN). -/
structure CanRow where
  node : String
  typ : String
  val : String
  hs : List Cell
deriving DecidableEq, Repr

/-- The 24 hour column labels as `read_csv` names them. -/
def hourColNames : List Cell := (List.range 24).map (fun j => Cell.s (toString j))

/-- A per-day canonical table right after the `Datetime` insert: the fixed
header columns followed by the 24 hour columns, one row per `CanRow`. -/
def canDF (entityCol : String) (day : Date) (rows : List CanRow) : DF :=
  { ixNames := [], ixRows := [],
    cols := [Cell.s "Datetime", Cell.s entityCol, Cell.s "Type", Cell.s "Value"]
      ++ hourColNames,
    rows := rows.map (fun r =>
      [Cell.dt day 0, Cell.s r.node, Cell.s r.typ, Cell.s r.val] ++ r.hs) }

/-- The wildcarded columns of the active index set, in the fixed order
entity, category, value. -/
def activeTail (entityCol nodes types values : String) : List Cell :=
  (if nodes = "*" then [Cell.s entityCol] else [])
    ++ (if types = "*" then [Cell.s "Type"] else [])
    ++ (if values = "*" then [Cell.s "Value"] else [])

/-- The active index set: `Datetime` plus each wildcarded column, in the
fixed order entity, category, value. -/
def activeIndex (entityCol nodes types values : String) : List Cell :=
  Cell.s "Datetime" :: activeTail entityCol nodes types values

/-- Whether a row survives the three filters. -/
def keepRow (nodes types values : String) (r : CanRow) : Bool :=
  (nodes == "*" || r.node == nodes) && (types == "*" || r.typ == types)
    && (values == "*" || r.val == values)

/-- The wildcarded descriptive fields of a row, in index order. -/
def wildFields (nodes types values : String) (r : CanRow) : List Cell :=
  (if nodes = "*" then [Cell.s r.node] else [])
    ++ (if types = "*" then [Cell.s r.typ] else [])
    ++ (if values = "*" then [Cell.s r.val] else [])

/-- A surviving row as the filter stage leaves it: `Datetime`, the kept
descriptive fields, then the 24 hour cells. -/
def projRow (nodes types values : String) (day : Date) (r : CanRow) : List Cell :=
  Cell.dt day 0 :: wildFields nodes types values r ++ r.hs

/-- The hours kept by `stack(dropna)` for a given list of hour cells. -/
def keptHours (dropna : Bool) (hs : List Cell) : List Nat :=
  (List.range 24).filter (fun j => !(dropna && (cellAt hs j == Cell.na)))

/-- The table the filter stage leaves for a canonical per-day table. -/
def filteredDF (entityCol nodes types values : String) (day : Date)
    (rows : List CanRow) : DF :=
  { ixNames := [], ixRows := [],
    cols := activeIndex entityCol nodes types values ++ hourColNames,
    rows := (rows.filter (fun r => keepRow nodes types values r)).map
      (fun r => projRow nodes types values day r) }

/-- The stacked table the stack stage produces from `filteredDF`: indexed by
the active index set with `Datetime` advanced by the hour, one `Value`
column, one row per surviving (row, kept hour) pair. -/
def stackedDF (entityCol nodes types values : String) (day : Date)
    (dropna : Bool) (rows : List CanRow) : DF :=
  { ixNames := activeIndex entityCol nodes types values,
    ixRows := (rows.filter (fun r => keepRow nodes types values r)).flatMap
      (fun r => (keptHours dropna r.hs).map
        (fun (j : Nat) => Cell.dt day ((j : ℚ) * 3600) :: wildFields nodes types values r)),
    cols := [Cell.s "Value"],
    rows := (rows.filter (fun r => keepRow nodes types values r)).flatMap
      (fun r => (keptHours dropna r.hs).map (fun j => [cellAt r.hs j])) }

/-- Modelled from the spec (claim C9 wording): the converter output read as
emitting, for each zone column pair in order, that zone's Forecast row
immediately followed by that zone's Actual row. -/
def c9ClaimRows (wb : Workbook) : List (List Field) :=
  let sh := wb.sheet0
  ((List.range 4).map (fun r => (sh.srows r).map Field.str))
    ++ [dfalHeaderRow]
    ++ (zoneCols sh).flatMap (fun z => [forecastRow sh z, actualRow sh z])

/-! ### Concrete collaborators for witnesses and counterexamples -/

/-- Canonical delimited fixture: four descriptive lines, the header, and two
data rows with 24 hourly values each. -/
def fixtureCsv : String :=
  "l1\nl2\nl3\nl4\nNode,Type,Value,"
    ++ String.intercalate "," ((List.range 24).map toString)
    ++ "\nN1,Hub,LMP," ++ String.intercalate "," ((List.range 24).map (fun j => toString (j + 100)))
    ++ "\nN2,Loadzone,MCC," ++ String.intercalate "," ((List.range 24).map (fun j => toString (j + 200)))

/-- A network that always delivers the delimited fixture; writes succeed. -/
def envCsvOk : Env := { net := fun _ => .ok (.csv fixtureCsv), writeOk := fun _ => true }

/-- A network that delivers the fixture but a cache that refuses writes. -/
def envWriteFail : Env := { net := fun _ => .ok (.csv fixtureCsv), writeOk := fun _ => false }

/-- A network where every retrieval fails. -/
def envNetFail : Env := { net := fun _ => .error (), writeOk := fun _ => true }

/-- A two-zone fixture sheet: zone header cells at columns 2 and 4, numeric
cells distinguishing every (row, column) pair. -/
def sheet2z : Sheet :=
  { srows := fun r => ["desc" ++ toString r],
    hdr := ["", "", "ZoneA label", "", "ZoneB label", ""],
    num := fun r c => (r : ℚ) * 100 + c }

/-- The two-zone fixture workbook. -/
def wb2z : Workbook := ⟨sheet2z⟩

/-- A network delivering the two-zone workbook; writes succeed. -/
def envXlsOk : Env := { net := fun _ => .ok (.xls wb2z), writeOk := fun _ => true }

/-- A registry with no converters at all (`globals()` without the module's
converter function). -/
def emptyRegistry : Registry := fun _ => none

/-- Two concrete canonical rows used by the filter/stack witnesses. -/
def canRowsW : List CanRow :=
  [⟨"N1", "Hub", "LMP", (List.range 24).map (fun (j : Nat) => Cell.q (j : ℚ))⟩,
   ⟨"N2", "Loadzone", "MCC", (List.range 24).map (fun _ => Cell.na)⟩]

/-! ### Branch lemmas for the cached fetcher -/

theorem Data.init_nofmt (registry : Registry) (env : Env) (cache : Cache)
    (dataset : String) (day : Date) (hfmt : Data.lookupFormat dataset = none) :
    Data.init registry env cache dataset day
      = ⟨.error (.keyError dataset), cache, []⟩ := by
  simp [Data.init, hfmt]

theorem Data.init_hit (registry : Registry) (env : Env) (cache : Cache)
    (dataset ext : String) (day : Date) (c : Content)
    (hfmt : Data.lookupFormat dataset = some ext)
    (hc : cache (Data.fname dataset day ext) = some c) :
    Data.init registry env cache dataset day
      = ⟨(Data.processContent registry dataset ext (Data.fname dataset day ext) c).1,
         cache,
         [.cacheExists (Data.fname dataset day ext), .cacheRead (Data.fname dataset day ext)]
           ++ (Data.processContent registry dataset ext (Data.fname dataset day ext) c).2⟩ := by
  simp [Data.init, hfmt, hc]

theorem Data.init_missNet (registry : Registry) (env : Env) (cache : Cache)
    (dataset ext : String) (day : Date)
    (hfmt : Data.lookupFormat dataset = some ext)
    (hc : cache (Data.fname dataset day ext) = none)
    (hnet : env.net (Data.furl dataset day ext) = .error ()) :
    Data.init registry env cache dataset day
      = ⟨.error .retrievalFailure, cache,
         [.cacheExists (Data.fname dataset day ext), .netGet (Data.furl dataset day ext)]⟩ := by
  simp [Data.init, hfmt, hc, hnet]

theorem Data.init_missWrite (registry : Registry) (env : Env) (cache : Cache)
    (dataset ext : String) (day : Date) (c : Content)
    (hfmt : Data.lookupFormat dataset = some ext)
    (hc : cache (Data.fname dataset day ext) = none)
    (hnet : env.net (Data.furl dataset day ext) = .ok c)
    (hw : env.writeOk (Data.fname dataset day ext) = true) :
    Data.init registry env cache dataset day
      = ⟨(Data.processContent registry dataset ext (Data.fname dataset day ext) c).1,
         cacheInsert cache (Data.fname dataset day ext) c,
         [.cacheExists (Data.fname dataset day ext), .netGet (Data.furl dataset day ext),
          .cacheWrite (Data.fname dataset day ext)]
           ++ (Data.processContent registry dataset ext (Data.fname dataset day ext) c).2⟩ := by
  simp [Data.init, hfmt, hc, hnet, hw]

theorem Data.init_missWriteFail (registry : Registry) (env : Env) (cache : Cache)
    (dataset ext : String) (day : Date) (c : Content)
    (hfmt : Data.lookupFormat dataset = some ext)
    (hc : cache (Data.fname dataset day ext) = none)
    (hnet : env.net (Data.furl dataset day ext) = .ok c)
    (hw : env.writeOk (Data.fname dataset day ext) = false) :
    Data.init registry env cache dataset day
      = ⟨.error .cacheWriteFailure, cacheErase cache (Data.fname dataset day ext),
         [.cacheExists (Data.fname dataset day ext), .netGet (Data.furl dataset day ext),
          .cacheWrite (Data.fname dataset day ext),
          .cacheRemove (Data.fname dataset day ext)]⟩ := by
  simp [Data.init, hfmt, hc, hnet, hw]

theorem cacheInsert_self (cache : Cache) (k : String) (v : Content) :
    cacheInsert cache k v k = some v := by
  simp [cacheInsert]

theorem cacheErase_self (cache : Cache) (k : String) :
    cacheErase cache k k = none := by
  simp [cacheErase]

/-! ### Claim C1 -/

/-- Claim C1, as stated, is false on the code: at this concrete input the
byte retrieval succeeds (the trace shows the network call) and the cache
write fails, yet the fetch does not return the retrieved content — the
source re-raises after `os.remove`, so the constructor propagates the
persistence failure. -/
theorem c1_counterexample :
    (Data.init misoGlobals envWriteFail emptyCache "rt_lmp_final" ⟨2021, 1, 1⟩).result
      = .error .cacheWriteFailure
    ∧ (Data.init misoGlobals envWriteFail emptyCache "rt_lmp_final" ⟨2021, 1, 1⟩).trace
      = [.cacheExists ".cache/rt_lmp_final_20210101.csv",
         .netGet "https://docs.misoenergy.org/marketreports/20210101_rt_lmp_final.csv",
         .cacheWrite ".cache/rt_lmp_final_20210101.csv",
         .cacheRemove ".cache/rt_lmp_final_20210101.csv"] := by
  exact ⟨rfl, rfl⟩

/-- Claim C1 amended: when byte retrieval succeeds but cache persistence
fails, the fetcher removes the partially written cache entry and
*re-raises the persistence failure*: the fetch fails rather than returning
the retrieved content. -/
theorem c1_amended (registry : Registry) (env : Env) (cache : Cache)
    (dataset ext : String) (day : Date) (c : Content)
    (hfmt : Data.lookupFormat dataset = some ext)
    (hmiss : cache (Data.fname dataset day ext) = none)
    (hnet : env.net (Data.furl dataset day ext) = .ok c)
    (hw : env.writeOk (Data.fname dataset day ext) = false) :
    (Data.init registry env cache dataset day).result = .error .cacheWriteFailure
    ∧ (Data.init registry env cache dataset day).cache (Data.fname dataset day ext) = none
    ∧ (Data.init registry env cache dataset day).trace
      = [.cacheExists (Data.fname dataset day ext), .netGet (Data.furl dataset day ext),
         .cacheWrite (Data.fname dataset day ext), .cacheRemove (Data.fname dataset day ext)] := by
  rw [Data.init_missWriteFail registry env cache dataset ext day c hfmt hmiss hnet hw]
  exact ⟨rfl, cacheErase_self cache _, rfl⟩

/-- Witness for `c1_amended` at a concrete input. -/
theorem c1_amended_witness :
    envWriteFail.writeOk (Data.fname "rt_lmp_final" ⟨2021, 1, 1⟩ "csv") = false
    ∧ (Data.init misoGlobals envWriteFail emptyCache "rt_lmp_final" ⟨2021, 1, 1⟩).cache
        (Data.fname "rt_lmp_final" ⟨2021, 1, 1⟩ "csv") = none :=
  ⟨rfl, (c1_amended misoGlobals envWriteFail emptyCache "rt_lmp_final" "csv" ⟨2021, 1, 1⟩
    (.csv fixtureCsv) rfl rfl rfl rfl).2.1⟩

/-! ### Claim C2 -/

theorem assembleLoop_ok_pos (registry : Registry) (env : Env)
    (entityCol dataset : String) (stack : Bool) (types values nodes : String)
    (dropna : Bool) :
    ∀ (days : List Date) (cache : Cache) (dfs : List DF),
      (assembleLoop registry env entityCol dataset stack types values nodes dropna
        days cache).result = .ok dfs →
      ∀ df ∈ dfs, 0 < df.rows.length := by
  intro days
  induction days with
  | nil =>
    intro cache dfs h
    simp only [assembleLoop] at h
    cases h
    intro df hdf
    exact absurd hdf (by simp)
  | cons day rest ih =>
    intro cache dfs h
    simp only [assembleLoop] at h
    split at h
    · cases h
    · split at h
      · cases h
      · rename_i df0 _
        cases ho : (assembleLoop registry env entityCol dataset stack types values
            nodes dropna rest (Data.init registry env cache dataset day).cache).result with
        | error e => rw [ho] at h; cases h
        | ok dfs' =>
          rw [ho] at h
          simp only [Except.map] at h
          cases h
          intro df hdf
          rcases List.mem_append.mp hdf with hl | hr
          · by_cases hpos : 0 < df0.rows.length
            · rw [if_pos hpos] at hl
              rcases List.mem_singleton.mp hl with rfl
              exact hpos
            · rw [if_neg hpos] at hl
              exact absurd hl (by simp)
          · exact ih _ dfs' ho df hr

/-- Claim C2, as stated, is false on the code: there is no explicit
`EmptyResult` error anywhere in the module; a reversed range accumulates no
per-day table and the final `pd.concat([])` raises the engine's own
"no objects to concatenate" error. -/
theorem c2_counterexample :
    (Node.init misoGlobals envNetFail emptyCache "2021-01-02" "2021-01-01" "rt_lmp_final"
        false "*" "*" "*" true).result = .error .concatError := by
  rfl

/-- Claim C2 amended: when no per-day table with at least one row is
accumulated (for instance a reversed range, whose day list is empty), the
assembler fails — but with the table engine's concatenation error rather
than a dedicated `EmptyResult` error — and a successful result always has
at least one row (never a zero-row table). -/
theorem c2_amended (validTypes validValues : List String) (entityCol : String)
    (registry : Registry) (env : Env) (cache : Cache)
    (starttime stoptime dataset : String) (stack : Bool)
    (types values nodes : String) (dropna : Bool) :
    (∀ df, (assembleInit validTypes validValues entityCol registry env cache
        starttime stoptime dataset stack types values nodes dropna).result = .ok df →
      0 < df.rows.length)
    ∧ (∀ d1 d2, parseDate starttime = some d1 → parseDate stoptime = some d2 →
        (types = "*" ∨ types ∈ validTypes) → (values = "*" ∨ values ∈ validValues) →
        (assembleLoop registry env entityCol dataset stack types values nodes dropna
          (dateRange d1 d2) cache).result = .ok [] →
        (assembleInit validTypes validValues entityCol registry env cache
          starttime stoptime dataset stack types values nodes dropna).result
          = .error .concatError) := by
  constructor
  · intro df h
    simp only [assembleInit] at h
    split at h
    · cases h
    · split at h
      · cases h
      · split at h
        · cases h
        · split at h
          · cases h
          · split at h
            · cases h
            · rename_i dfs hloop
              cases hdfs : dfs with
              | nil => rw [hdfs] at h; cases h
              | cons d ds =>
                rw [hdfs] at h
                simp only [pdConcat] at h
                cases h
                have hd : 0 < d.rows.length :=
                  assembleLoop_ok_pos registry env entityCol dataset stack
                    types values nodes dropna _ _ dfs hloop d
                    (by rw [hdfs]; exact List.mem_cons_self d ds)
                simp only [List.length_append]
                omega
  · intro d1 d2 hp1 hp2 hv1 hv2 hloop
    have hnv1 : ¬ (types ≠ "*" ∧ ¬ types ∈ validTypes) := by
      rcases hv1 with h | h
      · intro hc; exact hc.1 h
      · intro hc; exact hc.2 h
    have hnv2 : ¬ (values ≠ "*" ∧ ¬ values ∈ validValues) := by
      rcases hv2 with h | h
      · intro hc; exact hc.1 h
      · intro hc; exact hc.2 h
    simp only [assembleInit, if_neg hnv1, if_neg hnv2, hp1, hp2, hloop]
    rfl

/-- Witness for `c2_amended` at a concrete reversed range. -/
theorem c2_witness :
    parseDate "2021-01-02" = some ⟨2021, 1, 2⟩
    ∧ (Node.init misoGlobals envNetFail emptyCache "2021-01-02" "2021-01-01"
        "rt_lmp_final" false "*" "*" "*" true).result = .error .concatError :=
  ⟨rfl, (c2_amended Node.VALIDTYPES Node.VALIDVALUES "Node" misoGlobals envNetFail
    emptyCache "2021-01-02" "2021-01-01" "rt_lmp_final" false "*" "*" "*" true).2
    ⟨2021, 1, 2⟩ ⟨2021, 1, 1⟩ rfl rfl (Or.inl rfl) (Or.inl rfl) rfl⟩

/-! ### Claim C3 -/

/-- Claim C3 is right about the intended behavior but the code is wrong: in
both variants a value filter outside the vocabulary reaches
`raise MiseValueNotFound(values)`, and `MiseValueNotFound` is an undefined
name (the defined class is `MisoValueNotFound`), so Python raises a
`NameError` that carries no filter value instead of the invalid-value
error. -/
theorem c3_bug_eval :
    (Node.init misoGlobals envCsvOk emptyCache "2021-01-01" "2021-01-01" "rt_lmp_final"
        false "*" "BOGUS" "*" true).result
      = .error (.nameError "MiseValueNotFound")
    ∧ (Zone.init misoGlobals envCsvOk emptyCache "2022-01-31" "2022-01-31" "df_al"
        false "*" "BOGUS" "*" true).result
      = .error (.nameError "MiseValueNotFound") := by
  exact ⟨rfl, rfl⟩

/-! ### Claim C5 -/

/-- Claim C5: in either variant, a category (`types`) filter outside the
variant's vocabulary fails with `MisoTypeNotFound` before any collaborator
activity: the trace is empty and the cache is untouched. -/
theorem c5_theorem (registry : Registry) (env : Env) (cache : Cache)
    (starttime stoptime dataset : String) (stack : Bool)
    (values nodes : String) (dropna : Bool) (types : String) :
    (types ≠ "*" → ¬ types ∈ Node.VALIDTYPES →
      Node.init registry env cache starttime stoptime dataset stack types values nodes dropna
        = ⟨.error (.misoTypeNotFound types), cache, []⟩)
    ∧ (types ≠ "*" → ¬ types ∈ Zone.VALIDTYPES →
      Zone.init registry env cache starttime stoptime dataset stack types values nodes dropna
        = ⟨.error (.misoTypeNotFound types), cache, []⟩) := by
  constructor <;> intro h1 h2 <;> simp [Node.init, Zone.init, assembleInit, h1, h2]

/-- Witness for `c5_theorem` at a concrete input. -/
theorem c5_witness :
    ("Bogus" : String) ≠ "*"
    ∧ Node.init misoGlobals envCsvOk emptyCache "2021-01-01" "2021-01-07" "rt_lmp_final"
        false "Bogus" "*" "*" true
      = ⟨.error (.misoTypeNotFound "Bogus"), emptyCache, []⟩ :=
  ⟨by decide,
   (c5_theorem misoGlobals envCsvOk emptyCache "2021-01-01" "2021-01-07" "rt_lmp_final"
     false "*" "*" true "Bogus").1 (by decide) (by decide)⟩

/-! ### Claim C8 -/

/-- Claim C8: fetch is idempotent.  If a fetch returns canonical text `s`,
fetching again against the resulting cache returns the same `s` and leaves
the cache unchanged (the hit path reproduces the miss path's output). -/
theorem c8_theorem (registry : Registry) (env : Env) (cache : Cache)
    (dataset : String) (day : Date) (s : String)
    (h : (Data.init registry env cache dataset day).result = .ok s) :
    (Data.init registry env (Data.init registry env cache dataset day).cache
        dataset day).result = .ok s
    ∧ (Data.init registry env (Data.init registry env cache dataset day).cache
        dataset day).cache
      = (Data.init registry env cache dataset day).cache := by
  cases hfmt : Data.lookupFormat dataset with
  | none =>
    rw [Data.init_nofmt registry env cache dataset day hfmt] at h
    exact absurd h (by simp)
  | some ext =>
    cases hc : cache (Data.fname dataset day ext) with
    | some c =>
      rw [Data.init_hit registry env cache dataset ext day c hfmt hc] at h ⊢
      rw [Data.init_hit registry env cache dataset ext day c hfmt hc]
      exact ⟨h, rfl⟩
    | none =>
      cases hnet : env.net (Data.furl dataset day ext) with
      | error e =>
        cases e
        rw [Data.init_missNet registry env cache dataset ext day hfmt hc hnet] at h
        exact absurd h (by simp)
      | ok c =>
        cases hw : env.writeOk (Data.fname dataset day ext) with
        | false =>
          rw [Data.init_missWriteFail registry env cache dataset ext day c hfmt hc hnet hw] at h
          exact absurd h (by simp)
        | true =>
          rw [Data.init_missWrite registry env cache dataset ext day c hfmt hc hnet hw] at h ⊢
          rw [Data.init_hit registry env _ dataset ext day c hfmt (cacheInsert_self cache _ c)]
          exact ⟨h, rfl⟩

/-- Witness for `c8_theorem` at a concrete input. -/
theorem c8_witness :
    (Data.init misoGlobals envCsvOk emptyCache "rt_lmp_final" ⟨2021, 1, 1⟩).result
      = .ok fixtureCsv
    ∧ (Data.init misoGlobals envCsvOk
        (Data.init misoGlobals envCsvOk emptyCache "rt_lmp_final" ⟨2021, 1, 1⟩).cache
        "rt_lmp_final" ⟨2021, 1, 1⟩).result = .ok fixtureCsv :=
  ⟨rfl, (c8_theorem misoGlobals envCsvOk emptyCache "rt_lmp_final" ⟨2021, 1, 1⟩
    fixtureCsv rfl).1⟩

/-! ### Claim C10 -/

/-- Claim C10: for a spreadsheet-format dataset whose converter is not in the
registry (the only spreadsheet dataset is `df_al`; `globals()` is the
registry parameter), the unsupported-format error is raised only after the
bytes were downloaded and written to the cache: the trace shows the download
and the write, the cache entry persists, and the error carries the cache
filename, which differs from the dataset identifier. -/
theorem c10_theorem (registry : Registry) (env : Env) (cache : Cache)
    (day : Date) (wb : Workbook)
    (hreg : registry "convert_df_al2csv" = none)
    (hmiss : cache (Data.fname "df_al" day "xls") = none)
    (hnet : env.net (Data.furl "df_al" day "xls") = .ok (.xls wb))
    (hw : env.writeOk (Data.fname "df_al" day "xls") = true) :
    (Data.init registry env cache "df_al" day).result
      = .error (.misoInvalidDataFormat (Data.fname "df_al" day "xls"))
    ∧ (Data.init registry env cache "df_al" day).cache (Data.fname "df_al" day "xls")
      = some (.xls wb)
    ∧ (Data.init registry env cache "df_al" day).trace
      = [.cacheExists (Data.fname "df_al" day "xls"),
         .netGet (Data.furl "df_al" day "xls"),
         .cacheWrite (Data.fname "df_al" day "xls")]
    ∧ Data.fname "df_al" day "xls" ≠ "df_al" := by
  rw [Data.init_missWrite registry env cache "df_al" "xls" day (.xls wb) rfl hmiss hnet hw]
  refine ⟨by simp [Data.processContent, hreg], cacheInsert_self cache _ _,
    by simp [Data.processContent, hreg], ?_⟩
  intro hcontr
  have hlen := congrArg String.length hcontr
  simp only [Data.fname, Data.CACHEDIR, String.length_append] at hlen
  have h1 : (".cache" : String).length = 6 := rfl
  have h2 : ("/" : String).length = 1 := rfl
  have h3 : ("df_al" : String).length = 5 := rfl
  have h4 : ("_" : String).length = 1 := rfl
  have h5 : ("." : String).length = 1 := rfl
  have h6 : ("xls" : String).length = 3 := rfl
  rw [h1, h2, h3, h4, h5, h6] at hlen
  omega

/-- Witness for `c10_theorem` at a concrete input. -/
theorem c10_witness :
    emptyRegistry "convert_df_al2csv" = none
    ∧ (Data.init emptyRegistry envXlsOk emptyCache "df_al" ⟨2022, 1, 31⟩).result
      = .error (.misoInvalidDataFormat ".cache/df_al_20220131.xls") :=
  ⟨rfl, (c10_theorem emptyRegistry envXlsOk emptyCache ⟨2022, 1, 31⟩ wb2z
    rfl rfl rfl rfl).1⟩

/-! ### Claim C4 -/

/-- Claim C4, as stated, is false on the code: after a cache miss for the
spreadsheet dataset the cache entry holds the original workbook bytes (the
`Content.xls` constructor, not converted text), and the second, cache-hit
fetch runs the converter again (its trace records the converter call). -/
theorem c4_counterexample :
    (Data.init misoGlobals envXlsOk emptyCache "df_al" ⟨2022, 1, 31⟩).cache
        ".cache/df_al_20220131.xls" = some (.xls wb2z)
    ∧ Ev.convertCall "convert_df_al2csv"
        ∈ (Data.init misoGlobals envXlsOk
            (Data.init misoGlobals envXlsOk emptyCache "df_al" ⟨2022, 1, 31⟩).cache
            "df_al" ⟨2022, 1, 31⟩).trace := by
  exact ⟨rfl, by decide⟩

/-- Claim C4 amended: the cache entry written on a miss contains the
*original* spreadsheet bytes, and on a subsequent cache hit the converter
runs *again* on those cached bytes; the canonical text returned is
nevertheless identical on both calls. -/
theorem c4_amended (registry : Registry) (env : Env) (cache : Cache)
    (day : Date) (wb : Workbook) (f : Workbook → String)
    (hreg : registry "convert_df_al2csv" = some f)
    (hmiss : cache (Data.fname "df_al" day "xls") = none)
    (hnet : env.net (Data.furl "df_al" day "xls") = .ok (.xls wb))
    (hw : env.writeOk (Data.fname "df_al" day "xls") = true) :
    (Data.init registry env cache "df_al" day).cache (Data.fname "df_al" day "xls")
      = some (.xls wb)
    ∧ (Data.init registry env cache "df_al" day).result = .ok (f wb)
    ∧ (Data.init registry env (Data.init registry env cache "df_al" day).cache
        "df_al" day).result = .ok (f wb)
    ∧ Ev.convertCall "convert_df_al2csv"
        ∈ (Data.init registry env (Data.init registry env cache "df_al" day).cache
            "df_al" day).trace := by
  rw [Data.init_missWrite registry env cache "df_al" "xls" day (.xls wb) rfl hmiss hnet hw]
  rw [Data.init_hit registry env _ "df_al" "xls" day (.xls wb) rfl
    (cacheInsert_self cache _ _)]
  refine ⟨cacheInsert_self cache _ _, ?_, ?_, ?_⟩ <;>
    simp [Data.processContent, hreg]

/-! ### Claim C9 -/

theorem zoneCols_eq (sh : Sheet) (n : Nat) (h : sh.hdr.length = 2 + 2 * n) :
    zoneCols sh = (List.range n).map (fun i => 2 + 2 * i) := by
  have harg : (2 + 2 * n - 2 + 2 - 1) / 2 = n := by omega
  simp only [zoneCols, pyRangeStep, h, harg]

/-- Claim C9, as stated, is false on the code: the converter emits the rows
of the two series in two separate passes (all Forecast rows, then all Actual
rows), not one Forecast row immediately followed by that zone's Actual row.
On this two-zone workbook the row at index 6 is the second zone's Forecast
row, where the claim's reading places the first zone's Actual row. -/
theorem c9_counterexample :
    (convert_df_al2csv_rows wb2z)[6]?.map (fun r => (r[0]?, r[1]?))
      = some (some (Field.str "ZoneB"), some (Field.str "Forecast"))
    ∧ (c9ClaimRows wb2z)[6]?.map (fun r => (r[0]?, r[1]?))
      = some (some (Field.str "ZoneA"), some (Field.str "Actual"))
    ∧ convert_df_al2csv_rows wb2z ≠ c9ClaimRows wb2z := by
  have h1 : (convert_df_al2csv_rows wb2z)[6]?.map (fun r => (r[0]?, r[1]?))
      = some (some (Field.str "ZoneB"), some (Field.str "Forecast")) := by rfl
  have h2 : (c9ClaimRows wb2z)[6]?.map (fun r => (r[0]?, r[1]?))
      = some (some (Field.str "ZoneA"), some (Field.str "Actual")) := by rfl
  refine ⟨h1, h2, fun heq => ?_⟩
  have h3 := congrArg (fun l => (l[6]?).map (fun r => (r[0]?, r[1]?))) heq
  simp only at h3
  rw [h1, h2] at h3
  simp at h3

/-- Claim C9 amended: the converter emits the first four grid rows verbatim
and the synthetic header row, then one Forecast/LOAD row per zone column
pair (columns starting at 2, stepping by 2, 24 values rounded to 2 decimal
places), and after all of those, one Actual/LOAD row per zone column pair
(reading the adjacent `+1` column at the same rows) — the two series are
grouped, not interleaved per zone. -/
theorem c9_amended (wb : Workbook) (n : Nat) (h : wb.sheet0.hdr.length = 2 + 2 * n) :
    (convert_df_al2csv_rows wb).length = 5 + 2 * n
    ∧ (∀ k, k < 4 →
        (convert_df_al2csv_rows wb)[k]? = some ((wb.sheet0.srows k).map Field.str))
    ∧ (convert_df_al2csv_rows wb)[4]? = some dfalHeaderRow
    ∧ (∀ k, k < n →
        (convert_df_al2csv_rows wb)[5 + k]? = some (forecastRow wb.sheet0 (2 + 2 * k)))
    ∧ (∀ k, k < n →
        (convert_df_al2csv_rows wb)[5 + n + k]? = some (actualRow wb.sheet0 (2 + 2 * k))) := by
  have hout : convert_df_al2csv_rows wb
      = ((List.range 4).map (fun r => (wb.sheet0.srows r).map Field.str))
        ++ ([dfalHeaderRow]
          ++ ((List.range n).map (fun i => forecastRow wb.sheet0 (2 + 2 * i))
            ++ (List.range n).map (fun i => actualRow wb.sheet0 (2 + 2 * i)))) := by
    simp [convert_df_al2csv_rows, zoneCols_eq wb.sheet0 n h, List.append_assoc,
      List.map_map, Function.comp_def]
  rw [hout]
  refine ⟨?_, ?_, ?_, ?_, ?_⟩
  · simp only [List.length_append, List.length_map, List.length_range,
      List.length_cons, List.length_nil]
    omega
  · intro k hk
    rw [List.getElem?_append]
    simp [List.length_map, List.length_range, hk, List.getElem?_range]
  · rw [List.getElem?_append_right (by simp)]
    simp
  · intro k hk
    rw [List.getElem?_append_right
      (by simp only [List.length_map, List.length_range]; omega)]
    have h1 : 5 + k - ((List.range 4).map
        (fun r => (wb.sheet0.srows r).map Field.str)).length = 1 + k := by
      simp only [List.length_map, List.length_range]
      omega
    rw [h1, List.getElem?_append_right
      (by simp only [List.length_cons, List.length_nil]; omega)]
    have h2 : 1 + k - ([dfalHeaderRow] : List (List Field)).length = k := by
      simp only [List.length_cons, List.length_nil]
      omega
    rw [h2, List.getElem?_append]
    simp only [List.length_map, List.length_range]
    rw [if_pos hk, List.getElem?_map]
    rw [List.getElem?_range hk]
    rfl
  · intro k hk
    rw [List.getElem?_append_right
      (by simp only [List.length_map, List.length_range]; omega)]
    have h1 : 5 + n + k - ((List.range 4).map
        (fun r => (wb.sheet0.srows r).map Field.str)).length = 1 + n + k := by
      simp only [List.length_map, List.length_range]
      omega
    rw [h1, List.getElem?_append_right
      (by simp only [List.length_cons, List.length_nil]; omega)]
    have h2 : 1 + n + k - ([dfalHeaderRow] : List (List Field)).length = n + k := by
      simp only [List.length_cons, List.length_nil]
      omega
    rw [h2, List.getElem?_append_right
      (by simp only [List.length_map, List.length_range]; omega)]
    have h3 : n + k - ((List.range n).map
        (fun i => forecastRow wb.sheet0 (2 + 2 * i))).length = k := by
      simp only [List.length_map, List.length_range]
      omega
    rw [h3, List.getElem?_map, List.getElem?_range hk]
    rfl

/-- Witness for `c9_amended` at the concrete two-zone workbook. -/
theorem c9_amended_witness :
    wb2z.sheet0.hdr.length = 2 + 2 * 2
    ∧ (convert_df_al2csv_rows wb2z).length = 5 + 2 * 2
    ∧ (convert_df_al2csv_rows wb2z)[4]? = some dfalHeaderRow :=
  ⟨rfl, (c9_amended wb2z 2 rfl).1, (c9_amended wb2z 2 rfl).2.2.1⟩

/-! ### Claim C7 -/

theorem strBeqDecide (a b : String) : (a == b) = decide (a = b) := rfl

theorem cellBeqDecide (a b : Cell) : (a == b) = decide (a = b) := rfl

/-- Full characterization of the filter stage on a canonical per-day table:
the index collects `Datetime` plus the wildcarded columns in entity,
category, value order; concrete filters keep exactly the matching rows and
drop their column. -/
theorem filterStage_canDF (entityCol : String)
    (hec : entityCol = "Node" ∨ entityCol = "Zone")
    (day : Date) (rows : List CanRow) (nodes types values : String) :
    filterStage entityCol nodes types values (canDF entityCol day rows)
    = .ok (activeIndex entityCol nodes types values,
           { ixNames := [], ixRows := [],
             cols := activeIndex entityCol nodes types values ++ hourColNames,
             rows := (rows.filter (fun r => keepRow nodes types values r)).map
               (fun r => projRow nodes types values day r) }) := by
  rcases hec with rfl | rfl <;>
    by_cases h1 : nodes = "*" <;> by_cases h2 : types = "*" <;>
    by_cases h3 : values = "*" <;>
    simp [filterStage, canDF, activeIndex, activeTail, keepRow, wildFields, projRow,
      h1, h2, h3, DF.filterEq, DF.dropCol, DF.colIdx, applyMask, cellAt,
      List.filter_map, List.map_map, List.findIdx?_cons, List.eraseIdx,
      Function.comp_def, Except.instMonad, Except.bind, Except.pure,
      Except.map_ok, strBeqDecide, cellBeqDecide, List.filter_filter,
      Bool.and_comm, Bool.and_left_comm, Bool.and_assoc]

/-- Claim C7: on every per-day canonical table, each concrete filter among
entity, category and value keeps exactly the rows whose field equals the
filter value and removes that column; each wildcard filter keeps the column
and appends it to the index set in the fixed order Datetime, entity,
category, value. -/
theorem c7_theorem (entityCol : String)
    (hec : entityCol = "Node" ∨ entityCol = "Zone")
    (day : Date) (rows : List CanRow) (nodes types values : String) :
    filterStage entityCol nodes types values (canDF entityCol day rows)
    = .ok (activeIndex entityCol nodes types values,
           { ixNames := [], ixRows := [],
             cols := activeIndex entityCol nodes types values ++ hourColNames,
             rows := (rows.filter (fun r => keepRow nodes types values r)).map
               (fun r => projRow nodes types values day r) }) :=
  filterStage_canDF entityCol hec day rows nodes types values

/-! ### Claim C6 -/

theorem map_range_cellAt (pre post : List Cell) (n : Nat) (h : pre.length = n) :
    (List.range n).map (fun j => cellAt (pre ++ post) j) = pre := by
  subst h
  apply List.ext_getElem
  · simp
  · intro k h1 h2
    simp only [List.getElem_map, List.getElem_range, cellAt]
    rw [List.getD_append _ _ _ _ h2, List.getD_eq_getElem _ _ h2]

theorem removePositionsFrom_range_ge {α : Type} (n : Nat) :
    ∀ (post : List α) (i : Nat), n ≤ i →
      removePositionsFrom (List.range n) i post = post := by
  intro post
  induction post with
  | nil => intro i h; rfl
  | cons a as ih =>
    intro i h
    simp only [removePositionsFrom]
    rw [if_neg (by simp only [List.mem_range]; omega), ih (i + 1) (by omega)]

theorem removePositionsFrom_range_append {α : Type} (n : Nat) :
    ∀ (pre post : List α) (i : Nat), i + pre.length = n →
      removePositionsFrom (List.range n) i (pre ++ post) = post := by
  intro pre
  induction pre with
  | nil =>
    intro post i h
    simp only [List.length_nil, Nat.add_zero] at h
    exact List.nil_append post ▸ removePositionsFrom_range_ge n post i (by omega)
  | cons a as ih =>
    intro post i h
    simp only [List.length_cons] at h
    simp only [List.cons_append, removePositionsFrom]
    rw [if_pos (by simp only [List.mem_range]; omega)]
    exact ih post (i + 1) (by omega)

theorem removePositions_append {α : Type} (pre post : List α) (n : Nat)
    (h : pre.length = n) :
    removePositions (pre ++ post) (List.range n) = post :=
  removePositionsFrom_range_append n pre post 0 (by omega)

theorem findIdx?_append_of_none (p : Cell → Bool) :
    ∀ (l₁ l₂ : List Cell) (i : Nat), (∀ x ∈ l₁, p x = false) →
      List.findIdx? p (l₁ ++ l₂) i = List.findIdx? p l₂ (i + l₁.length) := by
  intro l₁
  induction l₁ with
  | nil => intro l₂ i h; simp
  | cons a as ih =>
    intro l₂ i h
    simp only [List.cons_append, List.findIdx?_cons]
    rw [if_neg (by simp [h a (List.mem_cons_self a as)]),
      ih l₂ (i + 1) (fun x hx => h x (List.mem_cons_of_mem a hx))]
    congr 1
    simp only [List.length_cons]
    omega

theorem set_append_length {α : Type} :
    ∀ (xs ys : List α) (a : α), (xs ++ ys).set xs.length a = xs ++ ys.set 0 a := by
  intro xs
  induction xs with
  | nil => intro ys a; rfl
  | cons x xt ih =>
    intro ys a
    simp only [List.cons_append, List.length_cons, List.set_cons_succ, ih]

theorem enum_map_range {β : Type} (n : Nat) (f : Nat → β) :
    ((List.range n).map f).enum = (List.range n).map (fun j => (j, f j)) := by
  apply List.ext_getElem
  · simp [List.enum_length]
  · intro k h1 h2
    rw [List.getElem_enum]
    simp [List.getElem_map, List.getElem_range]

theorem filterMap_if_map {β : Type} (cond : Nat → Bool) (G : Nat → β) :
    ∀ (l : List Nat),
      l.filterMap (fun j => if cond j then none else some (G j))
        = (l.filter (fun j => !cond j)).map G := by
  intro l
  induction l with
  | nil => rfl
  | cons a as ih =>
    by_cases h : cond a <;>
      simp [List.filterMap_cons, List.filter_cons, h, ih]

theorem updRow (day : Date) (midr : List Cell) (len : Nat) (hml : midr.length = len)
    (x : ℚ) (v : Cell) :
    (((Cell.dt day 0 :: midr) ++ [Cell.q x]) ++ [v]).set 0
      (addHours (cellAt (((Cell.dt day 0 :: midr) ++ [Cell.q x]) ++ [v]) 0)
        (cellAt (((Cell.dt day 0 :: midr) ++ [Cell.q x]) ++ [v]) (len + 1)))
    = ((Cell.dt day (x * 3600) :: midr) ++ [Cell.q x]) ++ [v] := by
  subst hml
  have h0 : cellAt (((Cell.dt day 0 :: midr) ++ [Cell.q x]) ++ [v]) 0 = Cell.dt day 0 := rfl
  have hh : cellAt (((Cell.dt day 0 :: midr) ++ [Cell.q x]) ++ [v]) (midr.length + 1)
      = Cell.q x := by
    simp only [cellAt]
    rw [List.getD_append _ _ _ _ (by simp)]
    rw [List.getD_append_right _ _ _ _ (by simp)]
    simp
  rw [h0, hh]
  simp [addHours, List.cons_append, List.set_cons_zero, zero_add]

theorem eraseRow (dt0 : Cell) (midr : List Cell) (len : Nat) (hml : midr.length = len)
    (c v : Cell) :
    (((dt0 :: midr) ++ [c]) ++ [v]).eraseIdx (len + 1) = (dt0 :: midr) ++ [v] := by
  subst hml
  rw [List.eraseIdx_append_of_lt_length (by simp) [v]]
  rw [show midr.length + 1 = (dt0 :: midr).length from by simp,
    List.eraseIdx_append_of_length_le (Nat.le_refl _)]
  simp

theorem stackStage_shape (ixTail : List Cell) (mid : CanRow → List Cell)
    (rs : List CanRow) (day : Date) (dropna : Bool)
    (Hlen : ∀ r ∈ rs, (mid r).length = ixTail.length)
    (Hpos1 : listPositions ((Cell.s "Datetime" :: ixTail) ++ hourColNames)
      (Cell.s "Datetime" :: ixTail) = .ok (List.range (ixTail.length + 1)))
    (Hpos2 : listPositions ((Cell.s "Datetime" :: ixTail) ++ [Cell.q 0])
      (Cell.s "Datetime" :: ixTail) = .ok (List.range (ixTail.length + 1)))
    (Hhour : ∀ x ∈ Cell.s "Datetime" :: ixTail, (x == Cell.s "hour") = false) :
    stackStage (Cell.s "Datetime" :: ixTail) dropna
      { ixNames := [], ixRows := [],
          cols := (Cell.s "Datetime" :: ixTail) ++ hourColNames,
          rows := rs.map (fun r => (Cell.dt day 0 :: mid r) ++ r.hs) }
    = .ok { ixNames := Cell.s "Datetime" :: ixTail,
            ixRows := rs.flatMap (fun r => (keptHours dropna r.hs).map
              (fun (j : Nat) => Cell.dt day ((j : ℚ) * 3600) :: mid r)),
            cols := [Cell.s "Value"],
            rows := rs.flatMap (fun r => (keptHours dropna r.hs).map
              (fun (j : Nat) => [cellAt r.hs j])) } := by
  have e1 : DF.setIndex
      { ixNames := [], ixRows := [],
          cols := (Cell.s "Datetime" :: ixTail) ++ hourColNames,
          rows := rs.map (fun r => (Cell.dt day 0 :: mid r) ++ r.hs) }
      (Cell.s "Datetime" :: ixTail)
      = .ok { ixNames := Cell.s "Datetime" :: ixTail,
              ixRows := rs.map (fun r => Cell.dt day 0 :: mid r),
              cols := hourColNames,
              rows := rs.map (fun r => r.hs) } := by
    simp only [DF.setIndex, Hpos1, Except.instMonad, Except.bind, Except.pure,
      Except.ok.injEq, DF.mk.injEq, List.map_map]
    refine ⟨trivial, ?_, ?_, ?_⟩
    · apply List.map_congr_left
      intro r hr
      exact map_range_cellAt (Cell.dt day 0 :: mid r) r.hs (ixTail.length + 1)
        (by simp [Hlen r hr])
    · exact removePositions_append _ _ _ (by simp)
    · apply List.map_congr_left
      intro r hr
      exact removePositions_append (Cell.dt day 0 :: mid r) r.hs (ixTail.length + 1)
        (by simp [Hlen r hr])
  have e2 : DF.setColumns
      { ixNames := Cell.s "Datetime" :: ixTail,
          ixRows := rs.map (fun r => Cell.dt day 0 :: mid r),
          cols := hourColNames,
          rows := rs.map (fun r => r.hs) }
      ((List.range 24).map (fun (j : Nat) => Cell.q (j : ℚ)))
      = .ok { ixNames := Cell.s "Datetime" :: ixTail,
              ixRows := rs.map (fun r => Cell.dt day 0 :: mid r),
              cols := (List.range 24).map (fun (j : Nat) => Cell.q (j : ℚ)),
              rows := rs.map (fun r => r.hs) } := by
    simp [DF.setColumns, hourColNames]
  have e34 : ((({
          ixNames := Cell.s "Datetime" :: ixTail,
          ixRows := rs.map (fun r => Cell.dt day 0 :: mid r),
          cols := (List.range 24).map (fun (j : Nat) => Cell.q (j : ℚ)),
          rows := rs.map (fun r => r.hs) } : DF).stackOp dropna).resetIndex).renameAt
      (ixTail.length + 1) (Cell.s "hour")
      = { ixNames := [], ixRows := [],
          cols := (Cell.s "Datetime" :: ixTail) ++ [Cell.s "hour", Cell.q 0],
          rows := rs.flatMap (fun r => (keptHours dropna r.hs).map
            (fun (j : Nat) => ((Cell.dt day 0 :: mid r) ++ [Cell.q (j : ℚ)]) ++ [cellAt r.hs j])) } := by
    simp only [DF.stackOp, DF.resetIndex, DF.renameAt, List.zip_map']
    simp only [List.flatMap_map, List.map_flatMap, List.map_map, enum_map_range,
      List.filterMap_map, Function.comp_def, filterMap_if_map, keptHours, DF.mk.injEq]
    refine ⟨trivial, trivial, ?_, trivial⟩
    rw [List.append_assoc,
      show ixTail.length + 1 = (Cell.s "Datetime" :: ixTail).length from
        (List.length_cons _ _).symm,
      set_append_length]
    rfl
  have hH : List.findIdx? (fun c => c == Cell.s "hour")
      ((Cell.s "Datetime" :: ixTail) ++ [Cell.s "hour", Cell.q 0])
      = some (ixTail.length + 1) := by
    rw [findIdx?_append_of_none _ _ _ _ Hhour]
    simp [List.findIdx?_cons]
  have hD : List.findIdx? (fun c => c == Cell.s "Datetime")
      ((Cell.s "Datetime" :: ixTail) ++ [Cell.s "hour", Cell.q 0])
      = some 0 := by
    simp [List.cons_append, List.findIdx?_cons]
  have e5 : DF.updDatetime
      { ixNames := [], ixRows := [],
          cols := (Cell.s "Datetime" :: ixTail) ++ [Cell.s "hour", Cell.q 0],
          rows := rs.flatMap (fun r => (keptHours dropna r.hs).map
            (fun (j : Nat) => ((Cell.dt day 0 :: mid r) ++ [Cell.q (j : ℚ)]) ++ [cellAt r.hs j])) }
      = .ok { ixNames := [], ixRows := [],
              cols := (Cell.s "Datetime" :: ixTail) ++ [Cell.s "hour", Cell.q 0],
              rows := rs.flatMap (fun r => (keptHours dropna r.hs).map
                (fun (j : Nat) =>
                  ((Cell.dt day ((j : ℚ) * 3600) :: mid r) ++ [Cell.q (j : ℚ)])
                    ++ [cellAt r.hs j])) } := by
    simp only [DF.updDatetime, DF.colIdx, hD, hH, Except.ok.injEq, DF.mk.injEq]
    refine ⟨trivial, trivial, trivial, ?_⟩
    simp only [List.map_flatMap, List.map_map, Function.comp_def]
    apply List.flatMap_congr
    intro r hr
    apply List.map_congr_left
    intro j hj
    exact updRow day (mid r) ixTail.length (Hlen r hr) (j : ℚ) (cellAt r.hs j)
  have e6 : DF.dropCol
      { ixNames := [], ixRows := [],
          cols := (Cell.s "Datetime" :: ixTail) ++ [Cell.s "hour", Cell.q 0],
          rows := rs.flatMap (fun r => (keptHours dropna r.hs).map
            (fun (j : Nat) =>
              ((Cell.dt day ((j : ℚ) * 3600) :: mid r) ++ [Cell.q (j : ℚ)])
                ++ [cellAt r.hs j])) }
      (Cell.s "hour")
      = .ok { ixNames := [], ixRows := [],
              cols := (Cell.s "Datetime" :: ixTail) ++ [Cell.q 0],
              rows := rs.flatMap (fun r => (keptHours dropna r.hs).map
                (fun (j : Nat) =>
                  (Cell.dt day ((j : ℚ) * 3600) :: mid r) ++ [cellAt r.hs j])) } := by
    simp only [DF.dropCol, DF.colIdx, hH, Except.ok.injEq, DF.mk.injEq]
    refine ⟨trivial, trivial, ?_, ?_⟩
    · rw [show ixTail.length + 1 = (Cell.s "Datetime" :: ixTail).length from
        (List.length_cons _ _).symm,
        List.eraseIdx_append_of_length_le (Nat.le_refl _)]
      simp
    · simp only [List.map_flatMap, List.map_map, Function.comp_def]
      apply List.flatMap_congr
      intro r hr
      apply List.map_congr_left
      intro j hj
      exact eraseRow (Cell.dt day ((j : ℚ) * 3600)) (mid r) ixTail.length (Hlen r hr)
        (Cell.q (j : ℚ)) (cellAt r.hs j)
  have e7 : DF.setIndex
      { ixNames := [], ixRows := [],
          cols := (Cell.s "Datetime" :: ixTail) ++ [Cell.q 0],
          rows := rs.flatMap (fun r => (keptHours dropna r.hs).map
            (fun (j : Nat) => (Cell.dt day ((j : ℚ) * 3600) :: mid r) ++ [cellAt r.hs j])) }
      (Cell.s "Datetime" :: ixTail)
      = .ok { ixNames := Cell.s "Datetime" :: ixTail,
              ixRows := rs.flatMap (fun r => (keptHours dropna r.hs).map
                (fun (j : Nat) => Cell.dt day ((j : ℚ) * 3600) :: mid r)),
              cols := [Cell.q 0],
              rows := rs.flatMap (fun r => (keptHours dropna r.hs).map
                (fun (j : Nat) => [cellAt r.hs j])) } := by
    simp only [DF.setIndex, Hpos2, Except.instMonad, Except.bind, Except.pure,
      Except.ok.injEq, DF.mk.injEq, List.map_flatMap, List.map_map, Function.comp_def]
    refine ⟨trivial, ?_, ?_, ?_⟩
    · apply List.flatMap_congr
      intro r hr
      apply List.map_congr_left
      intro j hj
      exact map_range_cellAt (Cell.dt day ((j : ℚ) * 3600) :: mid r) [cellAt r.hs j]
        (ixTail.length + 1) (by simp [Hlen r hr])
    · exact removePositions_append _ _ _ (by simp)
    · apply List.flatMap_congr
      intro r hr
      apply List.map_congr_left
      intro j hj
      exact removePositions_append (Cell.dt day ((j : ℚ) * 3600) :: mid r) [cellAt r.hs j]
        (ixTail.length + 1) (by simp [Hlen r hr])
  have e8 : DF.setColumns
      { ixNames := Cell.s "Datetime" :: ixTail,
          ixRows := rs.flatMap (fun r => (keptHours dropna r.hs).map
            (fun (j : Nat) => Cell.dt day ((j : ℚ) * 3600) :: mid r)),
          cols := [Cell.q 0],
          rows := rs.flatMap (fun r => (keptHours dropna r.hs).map
            (fun (j : Nat) => [cellAt r.hs j])) }
      [Cell.s "Value"]
      = .ok { ixNames := Cell.s "Datetime" :: ixTail,
              ixRows := rs.flatMap (fun r => (keptHours dropna r.hs).map
                (fun (j : Nat) => Cell.dt day ((j : ℚ) * 3600) :: mid r)),
              cols := [Cell.s "Value"],
              rows := rs.flatMap (fun r => (keptHours dropna r.hs).map
                (fun (j : Nat) => [cellAt r.hs j])) } := by
    simp [DF.setColumns]
  simp only [stackStage, List.length_cons, e1, Except.instMonad, Except.bind, Except.pure,
    e2, e34, e5, e6, e7, e8]

/-- Claim C6: on every per-day canonical table, for any filters, when stack
is requested the stack stage succeeds and produces exactly the stacked
table: each output row's `Datetime` index entry equals the day's midnight
plus `hour * 3600` seconds for its hour value in 0..23, the `hour` column is
absent from the final result, the row index is the active index set, and the
single remaining data column is named `Value`. -/
theorem c6_theorem (entityCol : String)
    (hec : entityCol = "Node" ∨ entityCol = "Zone")
    (day : Date) (rows : List CanRow) (nodes types values : String) (dropna : Bool) :
    stackStage (activeIndex entityCol nodes types values) dropna
      (filteredDF entityCol nodes types values day rows)
      = .ok (stackedDF entityCol nodes types values day dropna rows)
    ∧ (stackedDF entityCol nodes types values day dropna rows).cols = [Cell.s "Value"]
    ∧ (stackedDF entityCol nodes types values day dropna rows).ixNames
      = activeIndex entityCol nodes types values
    ∧ Cell.s "hour" ∉ (stackedDF entityCol nodes types values day dropna rows).cols
    ∧ Cell.s "hour" ∉ (stackedDF entityCol nodes types values day dropna rows).ixNames
    ∧ (∀ ixr ∈ (stackedDF entityCol nodes types values day dropna rows).ixRows,
        ∃ hr : Nat, hr < 24 ∧ ixr.head? = some (Cell.dt day ((hr : ℚ) * 3600))) := by
  have HlenPf : ∀ r ∈ rows.filter (fun r => keepRow nodes types values r),
      (wildFields nodes types values r).length
        = (activeTail entityCol nodes types values).length := by
    intro r hr
    by_cases h1 : nodes = "*" <;> by_cases h2 : types = "*" <;>
      by_cases h3 : values = "*" <;> simp [wildFields, activeTail, h1, h2, h3]
  have Hpos1Pf : listPositions
      ((Cell.s "Datetime" :: activeTail entityCol nodes types values) ++ hourColNames)
      (Cell.s "Datetime" :: activeTail entityCol nodes types values)
      = .ok (List.range ((activeTail entityCol nodes types values).length + 1)) := by
    rcases hec with rfl | rfl <;> by_cases h1 : nodes = "*" <;>
      by_cases h2 : types = "*" <;> by_cases h3 : values = "*" <;>
      simp only [activeTail, h1, h2, h3, if_pos, if_neg, if_true, if_false,
        not_false_iff] <;> rfl
  have Hpos2Pf : listPositions
      ((Cell.s "Datetime" :: activeTail entityCol nodes types values) ++ [Cell.q 0])
      (Cell.s "Datetime" :: activeTail entityCol nodes types values)
      = .ok (List.range ((activeTail entityCol nodes types values).length + 1)) := by
    rcases hec with rfl | rfl <;> by_cases h1 : nodes = "*" <;>
      by_cases h2 : types = "*" <;> by_cases h3 : values = "*" <;>
      simp only [activeTail, h1, h2, h3, if_pos, if_neg, if_true, if_false,
        not_false_iff] <;> rfl
  have HhourPf : ∀ x ∈ Cell.s "Datetime" :: activeTail entityCol nodes types values,
      (x == Cell.s "hour") = false := by
    rcases hec with rfl | rfl <;> by_cases h1 : nodes = "*" <;>
      by_cases h2 : types = "*" <;> by_cases h3 : values = "*" <;>
      simp only [activeTail, h1, h2, h3, if_pos, if_neg, if_true, if_false,
        not_false_iff] <;> decide
  refine ⟨?_, rfl, rfl, by simp [stackedDF], ?_, ?_⟩
  · have key := stackStage_shape (activeTail entityCol nodes types values)
      (fun r => wildFields nodes types values r)
      (rows.filter (fun r => keepRow nodes types values r)) day dropna
      HlenPf Hpos1Pf Hpos2Pf HhourPf
    simpa only [activeIndex, filteredDF, stackedDF, projRow, List.cons_append] using key
  · intro hmem
    exact absurd (HhourPf _ hmem) (by simp)
  · intro ixr hixr
    simp only [stackedDF, List.mem_flatMap, List.mem_map] at hixr
    obtain ⟨r, _, j, hj, rfl⟩ := hixr
    refine ⟨j, ?_, rfl⟩
    have := List.mem_filter.mp hj
    exact List.mem_range.mp this.1

/-- Witness for `c6_theorem` at a concrete input: stacking the unfiltered
two-row fixture. -/
theorem c6_witness :
    stackStage (activeIndex "Node" "*" "*" "*") true
      (filteredDF "Node" "*" "*" "*" ⟨2021, 1, 1⟩ canRowsW)
      = .ok (stackedDF "Node" "*" "*" "*" ⟨2021, 1, 1⟩ true canRowsW)
    ∧ (stackedDF "Node" "*" "*" "*" ⟨2021, 1, 1⟩ true canRowsW).cols
      = [Cell.s "Value"] :=
  ⟨( c6_theorem "Node" (Or.inl rfl) ⟨2021, 1, 1⟩ canRowsW "*" "*" "*" true).1,
   ( c6_theorem "Node" (Or.inl rfl) ⟨2021, 1, 1⟩ canRowsW "*" "*" "*" true).2.1⟩

/-- Witness for `c7_theorem` at a concrete input: filtering the two-row
fixture on entity `N1` keeps exactly the matching row and drops the entity
column. -/
theorem c7_witness :
    filterStage "Node" "N1" "*" "*" (canDF "Node" ⟨2021, 1, 1⟩ canRowsW)
    = .ok (activeIndex "Node" "N1" "*" "*",
           { ixNames := [], ixRows := [],
             cols := activeIndex "Node" "N1" "*" "*" ++ hourColNames,
             rows := (canRowsW.filter (fun r => keepRow "N1" "*" "*" r)).map
               (fun r => projRow "N1" "*" "*" ⟨2021, 1, 1⟩ r) }) :=
  c7_theorem "Node" (Or.inl rfl) ⟨2021, 1, 1⟩ canRowsW "N1" "*" "*"

/-- Witness for `c4_amended` at a concrete input. -/
theorem c4_amended_witness :
    misoGlobals "convert_df_al2csv" = some convert_df_al2csv
    ∧ (Data.init misoGlobals envXlsOk emptyCache "df_al" ⟨2022, 1, 31⟩).result
      = .ok (convert_df_al2csv wb2z) :=
  ⟨rfl, (c4_amended misoGlobals envXlsOk emptyCache ⟨2022, 1, 31⟩ wb2z
    convert_df_al2csv rfl rfl rfl rfl).2.1⟩

end Miso
